import Mathlib

/-!
Verification of the table-region detection service
(`screenshot-service/tableDetector.js` and `screenshot-service/server.js`).

The JavaScript source is shallowly embedded below.  Strings are modelled as
Lean `String`/`List Char`; JS numbers that hold similarity scores are
modelled as `ℚ` (all scores in the source are exact decimal fractions);
cell coordinates are 1-based `Nat` as in ExcelJS.  JS cell values are
modelled by their display strings: a value is "falsy" exactly when its
display string is empty (this covers the strings/omitted values the
detector works with; formula objects are always truthy and carry their
`result` as a string).

Each JS loop is embedded as a structural recursion over the (finite) list
of visited indices, threading exactly the mutable state of the loop.
-/

set_option maxRecDepth 16384

namespace ScreenshotService

/-! ## String helpers (JS `toLowerCase`, `trim`, `includes`, `replace`) -/

/-- JS whitespace for the purposes of `trim` and `\s` (space, tab, CR, LF). -/
def isWs (c : Char) : Bool := c = ' ' || c = '\t' || c = '\n' || c = '\r'

/-- Embeds `String.prototype.trim`: drop leading and trailing whitespace. -/
def trimChars (l : List Char) : List Char :=
  ((l.dropWhile isWs).reverse.dropWhile isWs).reverse

/-- Embeds `String.prototype.toLowerCase` (ASCII, as used by the source). -/
def lowerChars (l : List Char) : List Char := l.map Char.toLower

/-- Embeds `hay.includes(needle)`: substring containment. -/
def containsChars (hay needle : List Char) : Bool :=
  match hay with
  | [] => needle.isEmpty
  | _ :: t => needle.isPrefixOf hay || containsChars t needle

/-- Embeds `str.replace(/&/g, 'and')`. -/
def replaceAmp (l : List Char) : List Char :=
  l.foldr (fun c acc => if c = '&' then 'a' :: 'n' :: 'd' :: acc else c :: acc) []

/-- Embeds `str.replace(/\s+/g, ' ')`: collapse every whitespace run to one space.
`prevWs` records whether the previous character was whitespace. -/
def collapseWsAux (prevWs : Bool) : List Char → List Char
  | [] => []
  | c :: t =>
    if isWs c then
      if prevWs then collapseWsAux true t else ' ' :: collapseWsAux true t
    else c :: collapseWsAux false t

def collapseWs (l : List Char) : List Char := collapseWsAux false l

def lowerTrim (s : String) : List Char := trimChars (lowerChars s.data)

def containsStr (hay needle : String) : Bool := containsChars hay.data needle.data

/-! ## `levenshteinDistance` (tableDetector.js)

The source fills the classic dynamic-programming matrix with rows indexed
by `str2` and columns indexed by `str1`, and returns
`matrix[str2.length][str1.length]`.  We compute the same matrix row by
row: `levNewRow c s prevRow` is the matrix row for one further character
`c` of `str2`, given the previous row `prevRow` over `str1 = s`. -/

/-- One cell of the DP row: `diag` is `matrix[i-1][j-1]`, `left` is
`matrix[i][j-1]`, the head of `above` is `matrix[i-1][j]`. -/
def levRowAux (c : Char) : List Char → List Nat → Nat → Nat → List Nat
  | [], _, _, _ => []
  | sc :: srest, above :: arest, diag, left =>
    let v := if sc = c then diag else 1 + min diag (min left above)
    v :: levRowAux c srest arest above v
  | _ :: _, [], _, _ => []

def levNewRow (c : Char) (s : List Char) (prevRow : List Nat) : List Nat :=
  match prevRow with
  | [] => []
  | p0 :: prest => (p0 + 1) :: levRowAux c s prest p0 (p0 + 1)

/-- Embeds `levenshteinDistance(str1, str2)`; `s` plays `str1`, `t` plays `str2`. -/
def levenshteinDistance (s t : List Char) : Nat :=
  let row0 := List.range (s.length + 1)
  let lastRow := t.foldl (fun row c => levNewRow c s row) row0
  lastRow.getLastD 0

/-! ## `fuzzyMatch` (identical in both revisions of tableDetector.js) -/

/-- Embeds `fuzzyMatch(str1, str2)`: 1.0 exact, 0.9 containment, 0.95 after
`&`→`and` normalisation and whitespace collapsing, otherwise
`1 - distance / maxLength`.  The last value is written as the single
fraction `(maxLength - distance) / maxLength`, which is equal to it
(`maxLength` is never 0 on this branch: the strings differ, so at least
one normalised string is non-empty). -/
def fuzzyMatch (str1 str2 : String) : ℚ :=
  let s1 := trimChars (lowerChars str1.data)
  let s2 := trimChars (lowerChars str2.data)
  if s1 = s2 then 1
  else if containsChars s1 s2 || containsChars s2 s1 then mkRat 9 10
  else
    let normalized1 := collapseWs (replaceAmp s1)
    let normalized2 := collapseWs (replaceAmp s2)
    if normalized1 = normalized2 then mkRat 95 100
    else
      let distance := levenshteinDistance normalized1 normalized2
      let maxLength := max normalized1.length normalized2.length
      mkRat ((maxLength : ℤ) - (distance : ℤ)) maxLength

/-! ## Workbook data model

A cell's JS `value` is modelled by its display string.  A value is JS-falsy
exactly when that string is empty (`''`, `null`, `undefined` are all
represented by `.empty` or `.val ""`); `.formula` models a formula object
(always truthy) carrying `String(value.result || '')`.  Style access in the
source is `cell.font && cell.font.bold`, `cell.fill`, `cell.border` — each
a plain truthiness test, modelled by one `Bool` per attribute. -/

inductive CellValue where
  | empty : CellValue
  | val : String → CellValue
  | formula : String → CellValue
deriving DecidableEq

structure Cell where
  value : CellValue
  bold : Bool
  fill : Bool
  border : Bool
deriving DecidableEq

def blankCell : Cell := ⟨.empty, false, false, false⟩

/-- One entry of `worksheet._merges`, with its master at (startRow, startCol). -/
structure MergeRect where
  startRow : Nat
  startCol : Nat
  endRow : Nat
  endCol : Nat
deriving DecidableEq

/-- A worksheet: 1-based cell grid plus extents and merge list.  `cells`
outside `[1, rowCount] × [1, columnCount]` is expected to be `blankCell`. -/
structure Sheet where
  name : String
  rowCount : Nat
  columnCount : Nat
  cells : Nat → Nat → Cell
  merges : List MergeRect

structure Workbook where
  sheets : List Sheet

/-- Tests whether `value` is JS-falsy (`!cell.value`). -/
def rawValueFalsy : CellValue → Bool
  | .empty => true
  | .val s => s = ""
  | .formula _ => false

/-- Embeds `getMergedRange(worksheet, cell)`: first merge of `worksheet._merges`
containing the cell (the source iterates the merge list in order). -/
def getMergedRangeAt (ws : Sheet) (r c : Nat) : Option MergeRect :=
  ws.merges.find? fun m =>
    decide (m.startRow ≤ r) && decide (r ≤ m.endRow) &&
    decide (m.startCol ≤ c) && decide (c ≤ m.endCol)

/-- Embeds `cell.isMerged` (modelled from the merge list). -/
def isMergedAt (ws : Sheet) (r c : Nat) : Bool := (getMergedRangeAt ws r c).isSome

/-- Coordinates of `cell.master`: the top-left cell of the containing merge,
or the cell itself. -/
def masterOf (ws : Sheet) (r c : Nat) : Nat × Nat :=
  match getMergedRangeAt ws r c with
  | some m => (m.startRow, m.startCol)
  | none => (r, c)

/-- Embeds `getCellValue(cell)` (improved revision): falsy value → `''`; merged
slave → value of the master (the master is its own master, so the source's
guarded recursion performs exactly one hop for well-formed merge lists);
formula results containing `#NAME?`/`#REF!` → `''`. -/
def getCellValue (ws : Sheet) (r c : Nat) : String :=
  let cell := ws.cells r c
  if rawValueFalsy cell.value then ""
  else
    let m := masterOf ws r c
    let mcell := ws.cells m.1 m.2
    if rawValueFalsy mcell.value then ""
    else
      match mcell.value with
      | .formula res =>
        if containsStr res "#NAME?" || containsStr res "#REF!" then "" else res
      | .val s => s
      | .empty => ""

/-- Embeds `isCellEmpty(cell)` (improved revision).  A falsy `result` is modelled
by the empty string. -/
def isCellEmpty (cell : Cell) : Bool :=
  if rawValueFalsy cell.value then true
  else
    match cell.value with
    | .formula res =>
      if res ≠ "" && containsStr res "#NAME?" then true
      else res = "" || trimChars res.data = []
    | .val s => trimChars s.data = []
    | .empty => true

/-- Embeds `isCellEmpty(cell)` of the first revision (no `#NAME?` special case). -/
def isCellEmptyV1 (cell : Cell) : Bool :=
  if rawValueFalsy cell.value then true
  else
    match cell.value with
    | .formula res => res = "" || trimChars res.data = []
    | .val s => trimChars s.data = []
    | .empty => true

/-! ## `findSheet` (improved revision) -/

def strLowerTrim (s : String) : String := ⟨trimChars (lowerChars s.data)⟩

/-- The `commonSheetPatterns` table of the improved `findSheet`. -/
def commonSheetPatterns : List (String × List String) :=
  [("sources and uses", ["s&u", "su", "sources uses", "sources & uses", "s & u"]),
   ("ltc", ["ltc and ltv calcs", "ltv ltc", "ltc ltv", "ltc and ltv", "ltv and ltc"]),
   ("pilot", ["pilot", "pilot schedule"]),
   ("capital", ["capital stack", "cap stack"])]

/-- The score the improved `findSheet` computes for one sheet name against
one target (both already lower-cased and trimmed by the caller): the direct
`fuzzyMatch`, raised by pattern scores for every common-pattern key
contained in the target, then raised to at least 0.85 on mutual substring
containment. -/
def sheetTargetScore (sheetName targetLower : String) : ℚ :=
  let score := fuzzyMatch sheetName targetLower
  let score := commonSheetPatterns.foldl
    (fun sc kp =>
      if containsStr targetLower kp.1 then
        kp.2.foldl
          (fun sc' pattern =>
            let patternScore := fuzzyMatch sheetName pattern
            if patternScore > sc' then patternScore else sc')
          sc
      else sc)
    score
  if containsStr sheetName targetLower || containsStr targetLower sheetName then
    max score (mkRat 85 100)
  else score

/-- Embeds `findSheet(workbook, targetNames)` (improved revision): best score over
all sheets and targets, first sheet wins ties, accepted iff the best score
exceeds 0.5. -/
def findSheet (wb : Workbook) (targetNames : List String) : Option Sheet :=
  let res := wb.sheets.foldl
    (fun acc sheet =>
      let sheetName := strLowerTrim sheet.name
      targetNames.foldl
        (fun acc2 target =>
          let targetLower := strLowerTrim target
          let score := sheetTargetScore sheetName targetLower
          if score > acc2.1 then (score, some sheet) else acc2)
        acc)
    ((0 : ℚ), (none : Option Sheet))
  if res.1 > mkRat 1 2 then res.2 else none

/-! ## `TABLE_MAPPINGS` and `findTableHeader` (improved revision) -/

def strLower (s : String) : String := ⟨lowerChars s.data⟩

/-- The `TABLE_MAPPINGS` dictionary of the improved revision, in source order. -/
def TABLE_MAPPINGS : List (String × List String) :=
  [("Sources and Uses",
    ["sources and uses", "sources & uses", "source and use", "source & use",
     "sources / uses", "sources/uses"]),
   ("Take Out Loan Sizing",
    ["take out loan sizing", "takeout loan sizing", "take-out loan sizing",
     "loan sizing", "takeout sizing", "take out sizing"]),
   ("Capital Stack at Closing",
    ["capital stack at closing", "capital stack", "cap stack at closing",
     "cap stack", "capital stack closing"]),
   ("Loan to Cost",
    ["loan to cost", "ltc", "loan-to-cost", "l2c", "loan cost", "ltc analysis"]),
   ("Loan to Value",
    ["loan to value", "ltv", "loan-to-value", "l2v", "loan value", "ltv analysis"]),
   ("PILOT Schedule",
    ["pilot schedule", "pilot", "payment in lieu of taxes", "p.i.l.o.t",
     "pilot payment"]),
   ("Occupancy",
    ["occupancy", "unit mix", "unit occupancy", "occupancy schedule"]),
   ("LTC and LTV",
    ["ltc and ltv", "ltv and ltc", "ltc & ltv", "ltv & ltc", "ltc/ltv", "ltv/ltc"])]

/-- Computes `TABLE_MAPPINGS[tableName] || [tableName.toLowerCase()]` followed by
`variations.push(tableName.toLowerCase())`. -/
def tableVariations (tableName : String) : List String :=
  ((TABLE_MAPPINGS.lookup tableName).getD [strLower tableName]) ++ [strLower tableName]

/-- One recorded header match.  `confidence` is the literal JS string
`"exact"` or `"fuzzy"`. -/
structure HeaderMatch where
  row : Nat
  col : Nat
  value : String
  score : ℚ
  confidence : String
deriving DecidableEq

/-- Inclusive range `[a, b]` of 1-based indices (empty when `b < a`). -/
def natRange (a b : Nat) : List Nat := List.range' a (b + 1 - a)

/-- State of the scan loop of `findTableHeader`: the `processedMerges` set
and the `matches` array. -/
structure HeaderScanState where
  processed : List (Nat × Nat)
  found : List HeaderMatch

/-- The value/variation check of the scan loop of `findTableHeader` for
one (non-skipped) cell: every variation scoring above 0.7 pushes a match
carrying its score and confidence tier. -/
def headerCheckCell (ws : Sheet) (variations : List String) (r c : Nat)
    (st : HeaderScanState) : HeaderScanState :=
  let cellValue := getCellValue ws r c
  if cellValue = "" then st
  else
    let newMatches := variations.filterMap fun variation =>
      let score := fuzzyMatch cellValue variation
      if score > mkRat 7 10 then
        some ⟨r, c, cellValue, score,
              if score ≥ mkRat 95 100 then "exact" else "fuzzy"⟩
      else none
    ⟨st.processed, st.found ++ newMatches⟩

/-- Body of the scan loop of the improved `findTableHeader` for one cell:
merged cells are processed only once, at their master; otherwise the cell
is checked against all variations. -/
def headerScanCell (ws : Sheet) (variations : List String)
    (st : HeaderScanState) (r c : Nat) : HeaderScanState :=
  if isMergedAt ws r c then
    match getMergedRangeAt ws r c with
    | some m =>
      let mergeId := (m.startRow, m.startCol)
      if st.processed.contains mergeId then st
      else
        let st' : HeaderScanState := ⟨mergeId :: st.processed, st.found⟩
        if r = m.startRow && c = m.startCol then headerCheckCell ws variations r c st'
        else st'
    | none => headerCheckCell ws variations r c st
  else headerCheckCell ws variations r c st

/-- The `matches` array after the full row-major scan. -/
def headerCandidates (ws : Sheet) (tableName : String) (maxRows maxCols : Nat) :
    List HeaderMatch :=
  let variations := tableVariations tableName
  let coords := (natRange 1 (min maxRows ws.rowCount)).flatMap fun r =>
    (natRange 1 (min maxCols ws.columnCount)).map fun c => (r, c)
  (coords.foldl (fun st rc => headerScanCell ws variations st rc.1 rc.2) ⟨[], []⟩).found

/-- Stable insertion keeping strictly-larger scores in front; together with
`sortByScoreDesc` this produces the unique stable descending order, which is
what `matches.sort((a, b) => b.score - a.score)` yields (ES2019 stable sort). -/
def insertByScore (m : HeaderMatch) : List HeaderMatch → List HeaderMatch
  | [] => [m]
  | b :: t => if m.score ≥ b.score then m :: b :: t else b :: insertByScore m t

def sortByScoreDesc : List HeaderMatch → List HeaderMatch
  | [] => []
  | m :: t => insertByScore m (sortByScoreDesc t)

/-- Embeds `findTableHeader(worksheet, tableName, maxRows, maxCols)` (improved
revision); the source defaults `maxRows = 200`, `maxCols = 30`. -/
def findTableHeader (ws : Sheet) (tableName : String) (maxRows maxCols : Nat) :
    Option HeaderMatch :=
  (sortByScoreDesc (headerCandidates ws tableName maxRows maxCols)).head?

/-! ## `isTableData` and its regular expressions

Each JS regex is anchored (`^...$`) and built from character classes, so it
is transcribed as a deterministic scan.  `\s` is modelled by `isWs`. -/

def isDigitOrComma (c : Char) : Bool := c.isDigit || c = ','

/-- Drop one leading occurrence of `c`, if present (an optional literal). -/
def stripOpt (c : Char) (l : List Char) : List Char :=
  match l with
  | [] => []
  | x :: t => if x = c then t else l

/-- Matches `[\d,]+\.?\d*$`. -/
def numCore (l : List Char) : Bool :=
  let a := l.takeWhile isDigitOrComma
  let rest := l.dropWhile isDigitOrComma
  !a.isEmpty &&
    (match rest with
     | [] => true
     | '.' :: ds => ds.all Char.isDigit
     | _ => false)

/-- Matches `/^\$?[\d,]+\.?\d*$/`. -/
def regexCurrency (l : List Char) : Bool := numCore (stripOpt '$' l)

/-- Matches `/^-?\$?[\d,]+\.?\d*$/`. -/
def regexNegCurrency (l : List Char) : Bool := numCore (stripOpt '$' (stripOpt '-' l))

/-- Matches `/^\d+\.?\d*%?$/`. -/
def regexPercent (l : List Char) : Bool :=
  let d1 := l.takeWhile Char.isDigit
  let r1 := l.dropWhile Char.isDigit
  !d1.isEmpty &&
    (let r2 := stripOpt '.' r1
     let r3 := r2.dropWhile Char.isDigit
     r3.isEmpty || r3 = ['%'])

/-- Matches the `\d*[\(\)]?$` tail of the accounting pattern. -/
def digitsOptParen (ds : List Char) : Bool :=
  let r := ds.dropWhile Char.isDigit
  r.isEmpty || r = ['('] || r = [')']

/-- Matches `/^[\(\)]?\$?[\d,]+\.?\d*[\(\)]?$/`. -/
def regexAccounting (l : List Char) : Bool :=
  let l1 := match l with
    | [] => ([] : List Char)
    | x :: t => if x = '(' || x = ')' then t else l
  let l2 := stripOpt '$' l1
  let a := l2.takeWhile isDigitOrComma
  let rest := l2.dropWhile isDigitOrComma
  !a.isEmpty &&
    (match rest with
     | [] => true
     | '.' :: ds => digitsOptParen ds
     | ['('] => true
     | [')'] => true
     | _ => false)

/-- Matches `/^[A-Z]\d+$/` (a cell reference such as `B7`). -/
def regexCellRef (l : List Char) : Bool :=
  match l with
  | c :: d :: ds => c.isUpper && (d :: ds).all Char.isDigit
  | _ => false

/-- A character of `[A-Za-z\s\-&\/]`. -/
def isLabelChar (c : Char) : Bool :=
  c.isUpper || c.isLower || isWs c || c = '-' || c = '&' || c = '/'

/-- Matches `/^[A-Za-z\s\-&\/]+$/`. -/
def regexLabel (l : List Char) : Bool := !l.isEmpty && l.all isLabelChar

/-- Embeds `isTableData(value, cell)` (improved revision). -/
def isTableData (value : String) (cell : Cell) : Bool :=
  if trimChars value.data = [] then false
  else
    let trimmedValue := trimChars value.data
    if regexCurrency trimmedValue then true
    else if regexNegCurrency trimmedValue then true
    else if regexPercent trimmedValue then true
    else if regexAccounting trimmedValue then true
    else
      let lowerValue := lowerChars trimmedValue
      if containsChars lowerValue "total".data || containsChars lowerValue "subtotal".data ||
         containsChars lowerValue "loan".data || containsChars lowerValue "equity".data ||
         containsChars lowerValue "cost".data || containsChars lowerValue "value".data then
        true
      else if trimmedValue.length > 3 && !regexCellRef trimmedValue then
        if cell.bold || cell.border then true
        else regexLabel trimmedValue && trimmedValue.length < 50
      else false

/-! ## `findTableBoundaries` (improved revision)

Each `for` loop of the source is embedded as a recursion over the list of
visited indices (or a countdown), threading exactly the loop's mutable
state. -/

/-- Bijective base-26 column letters (`1 → A`, `27 → AA`), as in an ExcelJS
cell address.  The first argument is fuel (`c` itself suffices). -/
def colLettersGo (fuel n : Nat) : List Char :=
  match fuel with
  | 0 => []
  | fuel + 1 =>
    if n = 0 then []
    else
      let n' := n - 1
      colLettersGo fuel (n' / 26) ++ [Char.ofNat ('A'.toNat + n' % 26)]

/-- Builds `worksheet.getCell(r, c).address`, e.g. `cellAddress 7 2 = "B7"`. -/
def cellAddress (r c : Nat) : String := ⟨colLettersGo c c⟩ ++ toString r

/-- The `actualBounds` object of the improved `findTableBoundaries`. -/
structure Bounds where
  topRow : Nat
  bottomRow : Nat
  leftCol : Nat
  rightCol : Nat
deriving DecidableEq

/-- Return value of the improved `findTableBoundaries`. -/
structure TableRegion where
  range : String
  startRow : Nat
  endRow : Nat
  startCol : Nat
  endCol : Nat
  headerCell : String
  hasGap : Bool
  gapColumns : List Nat
  actualBounds : Bounds
deriving DecidableEq

/-- Steps 2 and 3 column test: some row in `[headerRow, headerRow + 10]`
(clipped to the sheet) holds table-shaped data in this column. -/
def colHasTableData (ws : Sheet) (headerRow col : Nat) : Bool :=
  (natRange headerRow (min (headerRow + 10) ws.rowCount)).any fun r =>
    isTableData (getCellValue ws r col) (ws.cells r col)

/-- Step 2: walk `col` from `headerCol` down to 1; a data column updates
`leftCol` and sets `foundDataLeft`; the first dataless column after data
was found ends the walk. -/
def findLeftAux (ws : Sheet) (headerRow : Nat) :
    Nat → Nat → Bool → Nat
  | 0, leftCol, _ => leftCol
  | col + 1, leftCol, foundDataLeft =>
    if colHasTableData ws headerRow (col + 1) then
      findLeftAux ws headerRow col (col + 1) true
    else if foundDataLeft then leftCol
    else findLeftAux ws headerRow col leftCol foundDataLeft

/-- Mutable state of the step 3 rightward walk. -/
structure RightScanState where
  rightmostDataCol : Nat
  consecutiveEmptyCols : Nat
  gapCols : List Nat
  hasSignificantGap : Bool
deriving DecidableEq

/-- Step 3: walk right over the given columns, bridging up to 3
consecutive empty columns (within `headerCol + 15`); a significant gap is
flagged when data resumes more than one column after the last gap
column. -/
def findRightAux (ws : Sheet) (headerRow headerCol : Nat) :
    List Nat → RightScanState → RightScanState
  | [], st => st
  | col :: rest, st =>
    if colHasTableData ws headerRow col then
      let hasGap' := st.hasSignificantGap ||
        (match st.gapCols.getLast? with
         | some g => decide (col - g > 1)
         | none => false)
      findRightAux ws headerRow headerCol rest ⟨col, 0, st.gapCols, hasGap'⟩
    else
      let st' : RightScanState :=
        ⟨st.rightmostDataCol, st.consecutiveEmptyCols + 1,
         st.gapCols ++ [col], st.hasSignificantGap⟩
      if st'.consecutiveEmptyCols ≤ 3 && decide (col < headerCol + 15) then
        findRightAux ws headerRow headerCol rest st'
      else if !st'.hasSignificantGap then st'
      else findRightAux ws headerRow headerCol rest st'

/-- Step 4 row test: some non-gap column in the span holds a non-empty
value that is bold, filled, or mentions source/use/amount. -/
def rowHasHeaderContent (ws : Sheet) (leftCol rightCol : Nat)
    (gapCols : List Nat) (row : Nat) : Bool :=
  (natRange leftCol rightCol).any fun col =>
    !gapCols.contains col &&
      (let value := getCellValue ws row col
       let cell := ws.cells row col
       value ≠ "" &&
         (cell.bold || cell.fill ||
          containsStr (strLower value) "source" ||
          containsStr (strLower value) "use" ||
          containsStr (strLower value) "amount"))

/-- Step 4: walk `row` upward from `headerRow - 1` while header content is
found, but not below `stop = max 1 (headerRow - 3)`. -/
def findTopAux (ws : Sheet) (leftCol rightCol : Nat) (gapCols : List Nat)
    (stop : Nat) : Nat → Nat → Nat
  | 0, topRow => topRow
  | row + 1, topRow =>
    if row + 1 < stop then topRow
    else if rowHasHeaderContent ws leftCol rightCol gapCols (row + 1) then
      findTopAux ws leftCol rightCol gapCols stop row (row + 1)
    else topRow

/-- Step 5 row values: lower-cased non-empty values of the non-gap columns
of the span (`value && !isCellEmpty(cell)`). -/
def bottomRowVals (ws : Sheet) (leftCol rightCol : Nat) (gapCols : List Nat)
    (row : Nat) : List String :=
  (natRange leftCol rightCol).filterMap fun col =>
    if gapCols.contains col then none
    else
      let value := getCellValue ws row col
      if value ≠ "" && !isCellEmpty (ws.cells row col) then some (strLower value)
      else none

/-- Step 5: walk down; a data row advances `lastDataRow`; a row whose
joined text contains "total" but not "subtotal" ends the walk at that row
(`foundTotal`); more than one consecutive empty row ends it at
`lastDataRow`.  Returns `(bottomRow, foundTotal)`; the source's final
`if (!foundTotal) bottomRow = lastDataRow` is already folded into the
non-total exits. -/
def findBottomAux (ws : Sheet) (leftCol rightCol : Nat) (gapCols : List Nat) :
    List Nat → Nat → Nat × Bool
  | [], lastDataRow => (lastDataRow, false)
  | row :: rest, lastDataRow =>
    let rowValues := bottomRowVals ws leftCol rightCol gapCols row
    if !rowValues.isEmpty then
      let rowText := String.intercalate " " rowValues
      if containsStr rowText "total" && !containsStr rowText "subtotal" then
        (row, true)
      else findBottomAux ws leftCol rightCol gapCols rest row
    else
      if row - lastDataRow > 1 then (lastDataRow, false)
      else findBottomAux ws leftCol rightCol gapCols rest lastDataRow

/-- Steps 1–5 of the improved `findTableBoundaries`: the detected
`actualBounds` together with the final right-scan state (for `hasGap` and
`gapColumns`).  Note step 1's merged-header widening of `rightCol` is
overwritten by step 3 (`rightCol = rightmostDataCol`), as in the source. -/
def detectedScan (ws : Sheet) (headerRow headerCol : Nat) :
    Bounds × RightScanState :=
  -- Step 1: widen to the header cell's merge range
  let lr :=
    if isMergedAt ws headerRow headerCol then
      match getMergedRangeAt ws headerRow headerCol with
      | some m => (min headerCol m.startCol, max headerCol m.endCol)
      | none => (headerCol, headerCol)
    else (headerCol, headerCol)
  -- Step 2: left boundary
  let leftCol := findLeftAux ws headerRow headerCol lr.1 false
  -- Step 3: right boundary and gap columns
  let rightScan := findRightAux ws headerRow headerCol
    (natRange headerCol (min ws.columnCount (headerCol + 20)))
    ⟨headerCol, 0, [], false⟩
  let rightCol := rightScan.rightmostDataCol
  let gapCols := rightScan.gapCols
  -- Step 4: top boundary
  let topRow := findTopAux ws leftCol rightCol gapCols
    (max 1 (headerRow - 3)) (headerRow - 1) headerRow
  -- Step 5: bottom boundary
  let bottom := findBottomAux ws leftCol rightCol gapCols
    (natRange (headerRow + 1) (min ws.rowCount (headerRow + 50))) headerRow
  (⟨topRow, bottom.1, leftCol, rightCol⟩, rightScan)

/-- Embeds `findTableBoundaries(worksheet, headerMatch, padding)` — improved
revision: the steps 1–5 scan, then `finalPadding = Math.min(padding, 1)`
applied on all sides and clipped to the sheet extents. -/
def findTableBoundaries (ws : Sheet) (headerRow headerCol padding : Nat) :
    TableRegion :=
  let scan := detectedScan ws headerRow headerCol
  let b := scan.1
  let finalPadding := min padding 1
  let startRow := max 1 (b.topRow - finalPadding)
  let endRow := min ws.rowCount (b.bottomRow + finalPadding)
  let startCol := max 1 (b.leftCol - finalPadding)
  let endCol := min ws.columnCount (b.rightCol + finalPadding)
  ⟨cellAddress startRow startCol ++ ":" ++ cellAddress endRow endCol,
   startRow, endRow, startCol, endCol,
   cellAddress headerRow headerCol,
   scan.2.hasSignificantGap, scan.2.gapCols, b⟩

/-! ## `findTableBoundaries` (first revision) -/

structure TableRegionV1 where
  range : String
  startRow : Nat
  endRow : Nat
  startCol : Nat
  endCol : Nat
  headerCell : String
deriving DecidableEq

/-- First-revision left walk.  In the source, `hasData` is declared
`const hasData = false` and never reassigned, so `if (!hasData) break`
always fires: the loop body runs at most once, for `col = headerCol - 1`
(the inner row scan may still set `leftCol` to that column). -/
def findLeftV1 (ws : Sheet) (headerRow headerCol : Nat) : Nat :=
  if headerCol < 2 then headerCol
  else
    let col := headerCol - 1
    if (natRange headerRow (min (headerRow + 5) ws.rowCount)).any
        (fun r => !isCellEmptyV1 (ws.cells r col)) then col
    else headerCol

/-- First-revision right walk: tolerate one empty column, stop at two. -/
def findRightV1Aux (ws : Sheet) (headerRow : Nat) :
    List Nat → Nat → Nat → Nat
  | [], rightCol, _ => rightCol
  | col :: rest, rightCol, emptyColCount =>
    let hasData := (natRange headerRow (min (headerRow + 50) ws.rowCount)).any
      fun r => !isCellEmptyV1 (ws.cells r col)
    if hasData then findRightV1Aux ws headerRow rest col 0
    else
      let e := emptyColCount + 1
      if e ≥ 2 then rightCol
      else findRightV1Aux ws headerRow rest rightCol e

/-- First-revision bottom walk.  After `bottomRow = row; emptyRowCount = 0`
the source tests `if (emptyRowCount > 0)` on the just-zeroed counter — the
bold "new section" check is dead code and is omitted here. -/
def findBottomV1Aux (ws : Sheet) (leftCol rightCol : Nat) :
    List Nat → Nat → Nat → Nat
  | [], bottomRow, _ => bottomRow
  | row :: rest, bottomRow, emptyRowCount =>
    let hasData := (natRange leftCol rightCol).any
      fun col => !isCellEmptyV1 (ws.cells row col)
    if hasData then findBottomV1Aux ws leftCol rightCol rest row 0
    else
      let e := emptyRowCount + 1
      if e ≥ 2 then bottomRow
      else findBottomV1Aux ws leftCol rightCol rest bottomRow e

/-- Embeds `findTableBoundaries(worksheet, headerMatch, padding)` — first
revision: plain emptiness-based walks and the full (uncapped) padding. -/
def findTableBoundariesV1 (ws : Sheet) (headerRow headerCol padding : Nat) :
    TableRegionV1 :=
  let leftCol := findLeftV1 ws headerRow headerCol
  let rightCol := findRightV1Aux ws headerRow
    (natRange (headerCol + 1) ws.columnCount) headerCol 0
  let bottomRow := findBottomV1Aux ws leftCol rightCol
    (natRange (headerRow + 1) ws.rowCount) headerRow 0
  let startRow := max 1 (headerRow - padding)
  let endRow := min ws.rowCount (bottomRow + padding)
  let startCol := max 1 (leftCol - padding)
  let endCol := min ws.columnCount (rightCol + padding)
  ⟨cellAddress startRow startCol ++ ":" ++ cellAddress endRow endCol,
   startRow, endRow, startCol, endCol, cellAddress headerRow headerCol⟩

/-! ## `findSuggestions` and `detectTable` (improved revision) -/

/-- Body condition of `findSuggestions`: bold, a likely-table keyword, or a
fuzzy match above 0.5 against some canonical table name. -/
def isLikelyTable (value : String) (cell : Cell) : Bool :=
  let valueLower := strLower value
  cell.bold ||
  containsStr valueLower "table" ||
  containsStr valueLower "schedule" ||
  containsStr valueLower "summary" ||
  containsStr valueLower "analysis" ||
  TABLE_MAPPINGS.any fun kv => fuzzyMatch value kv.1 > mkRat 1 2

/-- Scan loop of `findSuggestions`, threading the `suggestions` array and
`seen` set, with the source's early return once `maxSuggestions` entries
have been pushed. -/
def findSuggestionsAux (ws : Sheet) (excludeRow : Int) (maxSuggestions : Nat) :
    List (Nat × Nat) → List String → List String → List String
  | [], suggestions, _ => suggestions
  | (r, c) :: rest, suggestions, seen =>
    if (r : Int) = excludeRow then
      findSuggestionsAux ws excludeRow maxSuggestions rest suggestions seen
    else
      let value := getCellValue ws r c
      if value = "" || seen.contains value then
        findSuggestionsAux ws excludeRow maxSuggestions rest suggestions seen
      else if isLikelyTable value (ws.cells r c) && value.length > 3 then
        let suggestions' := suggestions ++ [value ++ " (" ++ cellAddress r c ++ ")"]
        if suggestions'.length ≥ maxSuggestions then suggestions'
        else findSuggestionsAux ws excludeRow maxSuggestions rest suggestions'
          (seen ++ [value])
      else findSuggestionsAux ws excludeRow maxSuggestions rest suggestions seen

/-- Embeds `findSuggestions(worksheet, excludeRow, maxSuggestions)`: scan the
first 200 rows × 10 columns for bold / likely-table-name cells.  The
improved `detectTable` calls it with `excludeRow = -1` (no row excluded)
and `maxSuggestions = 3`. -/
def findSuggestions (ws : Sheet) (excludeRow : Int) (maxSuggestions : Nat) :
    List String :=
  let coords := (natRange 1 (min 200 ws.rowCount)).flatMap fun r =>
    (natRange 1 (min 10 ws.columnCount)).map fun c => (r, c)
  findSuggestionsAux ws excludeRow maxSuggestions coords [] []

/-- Models `[...new Set(l)]`: deduplicate keeping first occurrences in order. -/
def dedupFirstAux : List String → List String → List String
  | [], _ => []
  | x :: t, seen =>
    if seen.contains x then dedupFirstAux t seen else x :: dedupFirstAux t (x :: seen)

def dedupFirst (l : List String) : List String := dedupFirstAux l []

/-- The `results` object of `detectTable` (improved revision). -/
structure DetectResults where
  found : Bool
  sheet : Option String
  range : Option String
  headerCell : Option String
  confidence : Option String
  searchedSheets : List String
  suggestions : List String
  actualBounds : Option Bounds
deriving DecidableEq

/-- Smart sheet selection of the improved `detectTable` when no
`searchSheets` are supplied: name-aware candidates, falling back to all
sheets. -/
def smartSheetSelection (wb : Workbook) (tableName : String) : List Sheet :=
  let tableNameLower := strLower tableName
  let s1 :=
    if containsStr tableNameLower "sources" || containsStr tableNameLower "uses" ||
       containsStr tableNameLower "capital stack" || containsStr tableNameLower "takeout" ||
       containsStr tableNameLower "take out" then
      match findSheet wb ["s&u", "sources and uses", "su", "s & u"] with
      | some sheet => [sheet]
      | none => []
    else []
  let s2 :=
    if containsStr tableNameLower "ltc" || containsStr tableNameLower "ltv" ||
       containsStr tableNameLower "loan to" then
      match findSheet wb ["ltc and ltv calcs", "ltc ltv", "ltv ltc"] with
      | some sheet => [sheet]
      | none => []
    else []
  let s3 :=
    if containsStr tableNameLower "pilot" then
      match findSheet wb ["pilot", "pilot schedule"] with
      | some sheet => [sheet]
      | none => []
    else []
  let sheets0 := s1 ++ s2 ++ s3
  if sheets0.isEmpty then wb.sheets else sheets0

/-- The `sheetsToSearch` list together with `results.searchedSheets`, as
built by the improved `detectTable`. -/
def sheetsToSearchOf (wb : Workbook) (tableName : String)
    (searchSheets : Option (List String)) : List Sheet × List String :=
  match searchSheets with
  | some names =>
    if names.length > 0 then
      names.foldl
        (fun acc sheetName =>
          match findSheet wb [sheetName] with
          | some sheet => (acc.1 ++ [sheet], acc.2 ++ [sheet.name])
          | none => acc)
        ([], [])
    else
      let l := smartSheetSelection wb tableName
      (l, l.map Sheet.name)
  | none =>
    let l := smartSheetSelection wb tableName
    (l, l.map Sheet.name)

/-- The search loop of `detectTable`: first sheet whose header locator
succeeds, together with its match. -/
def firstHeaderHit (tableName : String) : List Sheet → Option (Sheet × HeaderMatch)
  | [] => none
  | sheet :: rest =>
    match findTableHeader sheet tableName 200 30 with
    | some hm => some (sheet, hm)
    | none => firstHeaderHit tableName rest

/-- Embeds `detectTable(workbook, tableName, searchSheets, padding)` (improved
revision). -/
def detectTable (wb : Workbook) (tableName : String)
    (searchSheets : Option (List String)) (padding : Nat) : DetectResults :=
  let pair := sheetsToSearchOf wb tableName searchSheets
  match firstHeaderHit tableName pair.1 with
  | some sh =>
    let boundaries := findTableBoundaries sh.1 sh.2.row sh.2.col padding
    ⟨true, some sh.1.name, some boundaries.range, some boundaries.headerCell,
     some sh.2.confidence, pair.2, [], some boundaries.actualBounds⟩
  | none =>
    let allSuggestions := pair.1.flatMap fun sheet =>
      (findSuggestions sheet (-1) 3).map fun s => s ++ " [" ++ sheet.name ++ "]"
    ⟨false, none, none, none, none, pair.2, (dedupFirst allSuggestions).take 8, none⟩

/-! ## Request validation in `server.js` (improved revision)

The two handlers validate the base64 payload (regex
`^[A-Za-z0-9+/]*={0,2}$`), decode it and check the ZIP local-file-header
magic `0x04034b50` in the first four bytes (little-endian), all before
`workbook.xlsx.load` and any detection or rendering.  Everything after the
signature check is abstracted as a continuation `process`, so that the
early-rejection results are provably independent of it. -/

def isB64Char (c : Char) : Bool :=
  c.isUpper || c.isLower || c.isDigit || c = '+' || c = '/'

/-- The regex `/^[A-Za-z0-9+\/]*={0,2}$/` as a deterministic scan. -/
def base64FormatOk (s : String) : Bool :=
  let rest := s.data.dropWhile isB64Char
  rest.all (· = '=') && decide (rest.length ≤ 2)

def b64Val (c : Char) : Nat :=
  if c.isUpper then c.toNat - 'A'.toNat
  else if c.isLower then c.toNat - 'a'.toNat + 26
  else if c.isDigit then c.toNat - '0'.toNat + 52
  else if c = '+' then 62
  else if c = '/' then 63
  else 0

/-- Pack 6-bit groups into bytes, dropping a trailing partial byte — the
behaviour of Node's `Buffer.from(s, 'base64')` on strings accepted by the
format regex (`=` padding already stripped). -/
def sextetsToBytes : List Nat → List Nat
  | a :: b :: c :: d :: rest =>
    (a * 4 + b / 16) :: ((b % 16) * 16 + c / 4) :: ((c % 4) * 64 + d) ::
      sextetsToBytes rest
  | [a, b] => [a * 4 + b / 16]
  | [a, b, c] => [a * 4 + b / 16, (b % 16) * 16 + c / 4]
  | _ => []

/-- Models `Buffer.from(excelBase64, 'base64')` (for regex-valid payloads). -/
def decodeBase64 (s : String) : List Nat :=
  sextetsToBytes ((s.data.filter isB64Char).map b64Val)

/-- Models `buffer.readUInt32LE(0)` (0 when the buffer is shorter than 4 bytes,
which the handlers reject separately via `buffer.length < 4`). -/
def readUInt32LE (buf : List Nat) : Nat :=
  buf.getD 0 0 + 256 * buf.getD 1 0 + 65536 * buf.getD 2 0 + 16777216 * buf.getD 3 0

/-- The ZIP local-file-header signature `PK\x03\x04`. -/
def zipMagic : Nat := 0x04034b50

/-- Outcome of a handler run: an early `res.status(code).json({error})`
rejection, or the value of the post-validation continuation. -/
inductive HandlerResult (α : Type) where
  | rejected : Nat → String → HandlerResult α
  | processed : α → HandlerResult α
deriving DecidableEq

structure DetectCaptureRequest where
  excelBase64 : Option String
  tableName : Option String
  searchSheets : Option (List String)
  padding : Option Nat
  filename : Option String

/-- The `/detect-and-capture` default `padding = 2` from the handler's
destructuring. -/
def detectAndCapturePaddingDefault : Nat := 2

/-- The `/detect-and-capture` handler up to the end of input validation;
`process` is everything from `workbook.xlsx.load` on (parsing, detection,
rendering).  A missing or JS-falsy (empty) parameter is rejected first,
then the base64 format, then the ZIP signature. -/
def detectAndCaptureHandler {α : Type}
    (process : List Nat → String → Option (List String) → Nat → Option String → α)
    (req : DetectCaptureRequest) : HandlerResult α :=
  match req.excelBase64, req.tableName with
  | some excelBase64, some tableName =>
    if excelBase64 = "" || tableName = "" then
      .rejected 400 "Missing required parameters: excelBase64, tableName"
    else if !base64FormatOk excelBase64 then
      .rejected 400 "Invalid excelBase64 format. Must be valid base64-encoded Excel file data."
    else
      let buffer := decodeBase64 excelBase64
      if buffer.length < 4 || readUInt32LE buffer ≠ zipMagic then
        .rejected 400 "Invalid Excel file. The provided base64 data does not appear to be a valid Excel file."
      else
        .processed (process buffer tableName req.searchSheets
          (req.padding.getD detectAndCapturePaddingDefault) req.filename)
  | _, _ => .rejected 400 "Missing required parameters: excelBase64, tableName"

structure ConvertRequest where
  excelBase64 : Option String
  sheetName : Option String
  range : Option String
  filename : Option String

/-- The `/convert` handler up to the end of input validation; `process`
is everything from `workbook.xlsx.load` on (sheet lookup, range parsing,
rendering). -/
def convertHandler {α : Type}
    (process : List Nat → String → String → Option String → α)
    (req : ConvertRequest) : HandlerResult α :=
  match req.excelBase64, req.sheetName, req.range with
  | some excelBase64, some sheetName, some range =>
    if excelBase64 = "" || sheetName = "" || range = "" then
      .rejected 400 "Missing required parameters: excelBase64, sheetName, range"
    else if !base64FormatOk excelBase64 then
      .rejected 400 "Invalid excelBase64 format. Must be valid base64-encoded Excel file data."
    else
      let buffer := decodeBase64 excelBase64
      if buffer.length < 4 || readUInt32LE buffer ≠ zipMagic then
        .rejected 400 "Invalid Excel file. The provided base64 data does not appear to be a valid Excel file."
      else
        .processed (process buffer sheetName range req.filename)
  | _, _, _ => .rejected 400 "Missing required parameters: excelBase64, sheetName, range"

/-! ## Concrete workbooks used by the theorems below -/

/-- A workbook whose only sheet is named `S&U` (1×1, empty). -/
def sheetSU : Sheet := ⟨"S&U", 1, 1, fun _ _ => blankCell, []⟩

def wbSU : Workbook := ⟨[sheetSU]⟩

/-- An empty 1×1 sheet named `Empty`, and its workbook. -/
def sheetEmpty : Sheet := ⟨"Empty", 1, 1, fun _ _ => blankCell, []⟩

def wbEmpty : Workbook := ⟨[sheetEmpty]⟩

/-- Two stacked tables: a `Sources and Uses` table (header row 1, body
rows 2–3), then at row 4 a header-styled cell whose text is the different
canonical table name `Loan to Cost` (bold/fill given by `b`/`f`), the
second table's body at row 5, and empty rows 6–8. -/
def sheetTwoTables (b f : Bool) : Sheet :=
  ⟨"S&U", 8, 2,
   fun r c =>
     match r, c with
     | 1, 1 => ⟨.val "Sources and Uses", true, false, false⟩
     | 2, 1 => ⟨.val "Equity", false, false, false⟩
     | 2, 2 => ⟨.val "100", false, false, false⟩
     | 3, 1 => ⟨.val "Loan", false, false, false⟩
     | 3, 2 => ⟨.val "200", false, false, false⟩
     | 4, 1 => ⟨.val "Loan to Cost", b, f, false⟩
     | 5, 1 => ⟨.val "Ratio", false, false, false⟩
     | 5, 2 => ⟨.val "55", false, false, false⟩
     | _, _ => blankCell,
   []⟩

/-- A table whose body ends in a `Total` row (row 3) followed by a
footnote row beginning with `*` (row 4); rows 5–6 are empty. -/
def sheetTotalFootnote : Sheet :=
  ⟨"S&U", 6, 2,
   fun r c =>
     match r, c with
     | 1, 1 => ⟨.val "Sources and Uses", true, false, false⟩
     | 2, 1 => ⟨.val "Equity", false, false, false⟩
     | 2, 2 => ⟨.val "100", false, false, false⟩
     | 3, 1 => ⟨.val "Total", false, false, false⟩
     | 3, 2 => ⟨.val "300", false, false, false⟩
     | 4, 1 => ⟨.val "* Footnote", false, false, false⟩
     | _, _ => blankCell,
   []⟩

/-- A 2×2 sheet holding a `Sources and Uses` header at (1,1). -/
def sheetHeaderDemo : Sheet :=
  ⟨"T", 2, 2,
   fun r c =>
     match r, c with
     | 1, 1 => ⟨.val "Sources and Uses", true, false, false⟩
     | 2, 1 => ⟨.val "Equity", false, false, false⟩
     | _, _ => blankCell,
   []⟩

/-! ## Specification-side definitions and concrete requests used by the theorems -/

/-- The per-sheet score exactly as claim C5 words it: the maximum over the
requested name variants of the plain `fuzzyMatch` cascade (no
common-pattern clause, no substring boost). -/
def claimC5Score (sheet : Sheet) : List String → ℚ
  | [] => 0
  | t :: rest => max (fuzzyMatch sheet.name t) (claimC5Score sheet rest)

def claimC5MaxScore (targetNames : List String) : List Sheet → ℚ
  | [] => 0
  | s :: rest => max (claimC5Score s targetNames) (claimC5MaxScore targetNames rest)

/-- The sheet resolver exactly as claim C5 words it: accept the
first highest-scoring sheet iff its score exceeds 0.5. -/
def claimC5FindSheet (wb : Workbook) (targetNames : List String) : Option Sheet :=
  if claimC5MaxScore targetNames wb.sheets > mkRat 1 2 then
    wb.sheets.find? fun s =>
      decide (claimC5Score s targetNames = claimC5MaxScore targetNames wb.sheets)
  else none

/-- The full per-sheet score the improved `findSheet` actually computes:
maximum over the variants of `sheetTargetScore` (the `fuzzyMatch` cascade
raised by triggered common-pattern scores and the 0.85 substring boost). -/
def sheetFullScore (sheet : Sheet) : List String → ℚ
  | [] => 0
  | t :: rest =>
    max (sheetTargetScore (strLowerTrim sheet.name) (strLowerTrim t))
      (sheetFullScore sheet rest)

def maxFullScore (targetNames : List String) : List Sheet → ℚ
  | [] => 0
  | s :: rest => max (sheetFullScore s targetNames) (maxFullScore targetNames rest)

/-- The earliest maximal-score element of a match list (what taking the
head of the stable descending sort selects). -/
def firstBest : List HeaderMatch → Option HeaderMatch
  | [] => none
  | m :: t =>
    match firstBest t with
    | none => some m
    | some b => if b.score > m.score then some b else some m

/-- Per-cell qualifying matches (the pushes of one scan-cell visit). -/
def cellMatches (ws : Sheet) (variations : List String) (r c : Nat) :
    List HeaderMatch :=
  if getCellValue ws r c = "" then []
  else
    variations.filterMap fun variation =>
      if fuzzyMatch (getCellValue ws r c) variation > mkRat 7 10 then
        some ⟨r, c, getCellValue ws r c, fuzzyMatch (getCellValue ws r c) variation,
              if fuzzyMatch (getCellValue ws r c) variation ≥ mkRat 95 100
              then "exact" else "fuzzy"⟩
      else none

/-- The match the header locator returns on `sheetHeaderDemo`. -/
def demoMatch : HeaderMatch := ⟨1, 1, "Sources and Uses", 1, "exact"⟩

/-- A `/detect-and-capture` request with a non-base64 payload, and a
`/convert` request whose payload decodes to fewer than 4 bytes. -/
def badReqDetect : DetectCaptureRequest :=
  ⟨some "###", some "Loan to Cost", none, none, none⟩

def badReqConvert : ConvertRequest := ⟨some "AAAA", some "S&U", some "A1:B2", none⟩

/-! ## Bounds of the boundary scans (for C1) -/

theorem natRange_le {a b x : Nat} (hx : x ∈ natRange a b) : a ≤ x := by
  unfold natRange at hx
  exact (List.mem_range'_1.mp hx).1

theorem findLeftAux_le (ws : Sheet) (hr B : Nat) :
    ∀ col acc found, acc ≤ B → col ≤ B →
      findLeftAux ws hr col acc found ≤ B := by
  intro col
  induction col with
  | zero => intro acc found hacc _; simpa [findLeftAux] using hacc
  | succ n ih =>
    intro acc found hacc hcol
    unfold findLeftAux
    split
    · exact ih (n + 1) true hcol (Nat.le_of_succ_le hcol)
    · split
      · exact hacc
      · exact ih acc found hacc (Nat.le_of_succ_le hcol)

theorem findRightAux_ge (ws : Sheet) (hr hc B : Nat) :
    ∀ cols st, B ≤ st.rightmostDataCol → (∀ c ∈ cols, B ≤ c) →
      B ≤ (findRightAux ws hr hc cols st).rightmostDataCol := by
  intro cols
  induction cols with
  | nil => intro st h _; simpa [findRightAux] using h
  | cons col rest ih =>
    intro st h hmem
    unfold findRightAux
    dsimp only
    split
    · exact ih _ (hmem col (List.mem_cons_self _ _)) fun c hc => hmem c (List.mem_cons_of_mem _ hc)
    · split
      · exact ih _ h fun c hc => hmem c (List.mem_cons_of_mem _ hc)
      · split
        · exact h
        · exact ih _ h fun c hc => hmem c (List.mem_cons_of_mem _ hc)

theorem findTopAux_le (ws : Sheet) (l r : Nat) (g : List Nat) (stop B : Nat) :
    ∀ row acc, acc ≤ B → row ≤ B →
      findTopAux ws l r g stop row acc ≤ B := by
  intro row
  induction row with
  | zero => intro acc hacc _; simpa [findTopAux] using hacc
  | succ n ih =>
    intro acc hacc hrow
    unfold findTopAux
    split
    · exact hacc
    · split
      · exact ih (n + 1) hrow (Nat.le_of_succ_le hrow)
      · exact hacc

theorem findBottomAux_ge (ws : Sheet) (l r : Nat) (g : List Nat) (B : Nat) :
    ∀ rows last, B ≤ last → (∀ x ∈ rows, B ≤ x) →
      B ≤ (findBottomAux ws l r g rows last).1 := by
  intro rows
  induction rows with
  | nil => intro last h _; simpa [findBottomAux] using h
  | cons row rest ih =>
    intro last h hmem
    unfold findBottomAux
    dsimp only
    split
    · split
      · exact hmem row (List.mem_cons_self _ _)
      · exact ih row (hmem row (List.mem_cons_self _ _))
          fun x hx => hmem x (List.mem_cons_of_mem _ hx)
    · split
      · exact h
      · exact ih last h fun x hx => hmem x (List.mem_cons_of_mem _ hx)

/-- The detected (pre-padding) bounds always bracket the header cell. -/
theorem detectedScan_bounds (ws : Sheet) (hr hc : Nat) :
    (detectedScan ws hr hc).1.topRow ≤ hr ∧ hr ≤ (detectedScan ws hr hc).1.bottomRow ∧
    (detectedScan ws hr hc).1.leftCol ≤ hc ∧ hc ≤ (detectedScan ws hr hc).1.rightCol := by
  unfold detectedScan
  refine ⟨?_, ?_, ?_, ?_⟩
  · exact findTopAux_le ws _ _ _ _ hr (hr - 1) hr le_rfl (Nat.sub_le hr 1)
  · exact findBottomAux_ge ws _ _ _ hr _ hr le_rfl
      fun x hx => (Nat.le_succ hr).trans (natRange_le hx)
  · refine findLeftAux_le ws hr hc hc _ false ?_ le_rfl
    split
    · split
      · exact Nat.min_le_left _ _
      · exact le_rfl
    · exact le_rfl
  · exact findRightAux_ge ws hr hc hc _ ⟨hc, 0, [], false⟩ le_rfl
      fun c hcm => natRange_le hcm

/-! ## First-revision bounds (for C1) -/

theorem findLeftV1_le (ws : Sheet) (hr hc : Nat) : findLeftV1 ws hr hc ≤ hc := by
  unfold findLeftV1
  dsimp only
  split
  · exact le_rfl
  · split
    · exact Nat.sub_le hc 1
    · exact le_rfl

theorem findRightV1Aux_ge (ws : Sheet) (hr B : Nat) :
    ∀ cols rc e, B ≤ rc → (∀ c ∈ cols, B ≤ c) →
      B ≤ findRightV1Aux ws hr cols rc e := by
  intro cols
  induction cols with
  | nil => intro rc e h _; simpa [findRightV1Aux] using h
  | cons col rest ih =>
    intro rc e h hmem
    unfold findRightV1Aux
    dsimp only
    split
    · exact ih _ _ (hmem col (List.mem_cons_self _ _))
        fun c hc => hmem c (List.mem_cons_of_mem _ hc)
    · split
      · exact h
      · exact ih _ _ h fun c hc => hmem c (List.mem_cons_of_mem _ hc)

theorem findBottomV1Aux_ge (ws : Sheet) (l r B : Nat) :
    ∀ rows br e, B ≤ br → (∀ x ∈ rows, B ≤ x) →
      B ≤ findBottomV1Aux ws l r rows br e := by
  intro rows
  induction rows with
  | nil => intro br e h _; simpa [findBottomV1Aux] using h
  | cons row rest ih =>
    intro br e h hmem
    unfold findBottomV1Aux
    dsimp only
    split
    · exact ih _ _ (hmem row (List.mem_cons_self _ _))
        fun x hx => hmem x (List.mem_cons_of_mem _ hx)
    · split
      · exact h
      · exact ih _ _ h fun x hx => hmem x (List.mem_cons_of_mem _ hx)

/-! ## Claim C1 -/

/-- C1: for every worksheet, header position inside the sheet and padding,
the rectangle returned by the boundary expander (both the improved and the
first revision of `findTableBoundaries`) contains the header cell:
`startRow ≤ headerRow ≤ endRow` and `startCol ≤ headerCol ≤ endCol`. -/
theorem claim_C1_header_within_region
    (ws : Sheet) (headerRow headerCol padding : Nat)
    (h1 : 1 ≤ headerRow) (h2 : headerRow ≤ ws.rowCount)
    (h3 : 1 ≤ headerCol) (h4 : headerCol ≤ ws.columnCount) :
    ((findTableBoundaries ws headerRow headerCol padding).startRow ≤ headerRow ∧
     headerRow ≤ (findTableBoundaries ws headerRow headerCol padding).endRow ∧
     (findTableBoundaries ws headerRow headerCol padding).startCol ≤ headerCol ∧
     headerCol ≤ (findTableBoundaries ws headerRow headerCol padding).endCol) ∧
    ((findTableBoundariesV1 ws headerRow headerCol padding).startRow ≤ headerRow ∧
     headerRow ≤ (findTableBoundariesV1 ws headerRow headerCol padding).endRow ∧
     (findTableBoundariesV1 ws headerRow headerCol padding).startCol ≤ headerCol ∧
     headerCol ≤ (findTableBoundariesV1 ws headerRow headerCol padding).endCol) := by
  obtain ⟨htop, hbot, hleft, hright⟩ := detectedScan_bounds ws headerRow headerCol
  constructor
  · unfold findTableBoundaries
    refine ⟨?_, ?_, ?_, ?_⟩
    · exact max_le h1 ((Nat.sub_le _ _).trans htop)
    · exact le_min h2 (hbot.trans (Nat.le_add_right _ _))
    · exact max_le h3 ((Nat.sub_le _ _).trans hleft)
    · exact le_min h4 (hright.trans (Nat.le_add_right _ _))
  · unfold findTableBoundariesV1
    refine ⟨?_, ?_, ?_, ?_⟩
    · exact max_le h1 (Nat.sub_le _ _)
    · refine le_min h2 (Nat.le_trans ?_ (Nat.le_add_right _ _))
      exact findBottomV1Aux_ge ws _ _ headerRow _ headerRow 0 le_rfl
        fun x hx => (Nat.le_succ headerRow).trans (natRange_le hx)
    · exact max_le h3 ((Nat.sub_le _ _).trans (findLeftV1_le ws headerRow headerCol))
    · refine le_min h4 (Nat.le_trans ?_ (Nat.le_add_right _ _))
      exact findRightV1Aux_ge ws headerRow headerCol _ headerCol 0 le_rfl
        fun c hc => (Nat.le_succ headerCol).trans (natRange_le hc)

/-- Witness for C1 at a concrete sheet and header position. -/
theorem claim_C1_witness :
    ((findTableBoundaries sheetTotalFootnote 1 1 1).startRow ≤ 1 ∧
     1 ≤ (findTableBoundaries sheetTotalFootnote 1 1 1).endRow ∧
     (findTableBoundaries sheetTotalFootnote 1 1 1).startCol ≤ 1 ∧
     1 ≤ (findTableBoundaries sheetTotalFootnote 1 1 1).endCol) ∧
    ((findTableBoundariesV1 sheetTotalFootnote 1 1 1).startRow ≤ 1 ∧
     1 ≤ (findTableBoundariesV1 sheetTotalFootnote 1 1 1).endRow ∧
     (findTableBoundariesV1 sheetTotalFootnote 1 1 1).startCol ≤ 1 ∧
     1 ≤ (findTableBoundariesV1 sheetTotalFootnote 1 1 1).endCol) :=
  claim_C1_header_within_region sheetTotalFootnote 1 1 1
    (by decide) (by decide) (by decide) (by decide)

/-! ## Claim C10 -/

/-- C10: the improved boundary expander caps the applied padding at 1
(`finalPadding = Math.min(padding, 1)`), so every padding `p ≥ 1` yields
the same region as `padding = 1` — even though `/detect-and-capture`
defaults its padding parameter to 2. -/
theorem claim_C10_padding_capped_at_one :
    (∀ (ws : Sheet) (headerRow headerCol p : Nat), 1 ≤ p →
      findTableBoundaries ws headerRow headerCol p =
        findTableBoundaries ws headerRow headerCol 1) ∧
    detectAndCapturePaddingDefault = 2 := by
  constructor
  · intro ws hr hc p hp
    unfold findTableBoundaries
    rw [Nat.min_eq_right hp, Nat.min_self]
  · rfl

/-- Witness for C10: padding 2 and padding 1 agree on a concrete sheet. -/
theorem claim_C10_witness :
    findTableBoundaries sheetTotalFootnote 1 1 2 =
      findTableBoundaries sheetTotalFootnote 1 1 1 :=
  claim_C10_padding_capped_at_one.1 sheetTotalFootnote 1 1 2 (by decide)

/-! ## Claim C4 -/

/-- Counterexample to C4 as stated: with the default `/detect-and-capture`
padding `p = 2`, the improved expander's rectangle is NOT the detected
spans expanded by exactly `p`: on `sheetTotalFootnote` the bottom row is 3
and the sheet has 6 rows, so the claim demands `endRow = min 6 (3 + 2) = 5`,
but the code returns `endRow = 4` (padding capped at 1). -/
theorem claim_C4_counterexample :
    (findTableBoundaries sheetTotalFootnote 1 1 2).actualBounds.bottomRow = 3 ∧
    sheetTotalFootnote.rowCount = 6 ∧
    (findTableBoundaries sheetTotalFootnote 1 1 2).endRow = 4 ∧
    (findTableBoundaries sheetTotalFootnote 1 1 2).endRow ≠
      min sheetTotalFootnote.rowCount
        ((findTableBoundaries sheetTotalFootnote 1 1 2).actualBounds.bottomRow + 2) := by
  refine ⟨by decide, by decide, by decide, by decide⟩

/-- C4 (amended): the returned rectangle is the detected row/column spans
expanded by exactly `min p 1` on all four sides for the improved revision
(and by exactly `p` for the first revision), clipped to the sheet extents
`[1, rowCount] × [1, columnCount]`. -/
theorem claim_C4_amended_padding_formula
    (ws : Sheet) (headerRow headerCol p : Nat) :
    ((findTableBoundaries ws headerRow headerCol p).startRow =
       max 1 ((findTableBoundaries ws headerRow headerCol p).actualBounds.topRow - min p 1) ∧
     (findTableBoundaries ws headerRow headerCol p).endRow =
       min ws.rowCount
         ((findTableBoundaries ws headerRow headerCol p).actualBounds.bottomRow + min p 1) ∧
     (findTableBoundaries ws headerRow headerCol p).startCol =
       max 1 ((findTableBoundaries ws headerRow headerCol p).actualBounds.leftCol - min p 1) ∧
     (findTableBoundaries ws headerRow headerCol p).endCol =
       min ws.columnCount
         ((findTableBoundaries ws headerRow headerCol p).actualBounds.rightCol + min p 1)) ∧
    (let leftCol := findLeftV1 ws headerRow headerCol
     let rightCol := findRightV1Aux ws headerRow
       (natRange (headerCol + 1) ws.columnCount) headerCol 0
     let bottomRow := findBottomV1Aux ws leftCol rightCol
       (natRange (headerRow + 1) ws.rowCount) headerRow 0
     (findTableBoundariesV1 ws headerRow headerCol p).startRow = max 1 (headerRow - p) ∧
     (findTableBoundariesV1 ws headerRow headerCol p).endRow =
       min ws.rowCount (bottomRow + p) ∧
     (findTableBoundariesV1 ws headerRow headerCol p).startCol = max 1 (leftCol - p) ∧
     (findTableBoundariesV1 ws headerRow headerCol p).endCol =
       min ws.columnCount (rightCol + p)) := by
  exact ⟨⟨rfl, rfl, rfl, rfl⟩, ⟨rfl, rfl, rfl, rfl⟩⟩

/-! ## Claim C2 -/

/-- Counterexample to C2: on `sheetTwoTables true true`, row 4 is a
header-styled (bold, filled) leading cell whose text `Loan to Cost` is a
different canonical table name than the `Sources and Uses` being expanded,
yet downward expansion does NOT stop strictly before row 4: the detected
bottom row is 5 (the second table's body row), not at most 3. -/
theorem claim_C2_counterexample :
    ¬((findTableBoundaries (sheetTwoTables true true) 1 1 1).actualBounds.bottomRow < 4) ∧
    (findTableBoundaries (sheetTwoTables true true) 1 1 1).actualBounds.bottomRow = 5 ∧
    (findTableBoundaries (sheetTwoTables true true) 1 1 1).endRow = 6 :=
  ⟨by decide, by decide, by decide⟩

/-- C2 (amended): the improved downward expansion has no adjacent-table
stop at all — a non-empty row is treated as live data regardless of its
styling.  Whatever bold/fill styling the foreign `Loan to Cost` header row
carries, it and the following body row are absorbed, and expansion stops
only via the consecutive-empty-row rule (here at bottom row 5). -/
theorem claim_C2_amended_no_adjacent_table_stop (b f : Bool) :
    (findTableBoundaries (sheetTwoTables b f) 1 1 1).actualBounds.bottomRow = 5 ∧
    (findTableBoundaries (sheetTwoTables b f) 1 1 1).endRow = 6 := by
  cases b <;> cases f <;> exact ⟨by decide, by decide⟩

/-! ## Claim C3 -/

/-- Counterexample to C3: on `sheetTotalFootnote` the total row is row 3
and row 4 is a footnote row beginning with `*`, but the last pre-padding
row of the detected region is the total row 3, not the footnote row 4 —
no footnote rows are scanned after a total row. -/
theorem claim_C3_counterexample :
    getCellValue sheetTotalFootnote 4 1 = "* Footnote" ∧
    (findTableBoundaries sheetTotalFootnote 1 1 1).actualBounds.bottomRow = 3 ∧
    (findTableBoundaries sheetTotalFootnote 1 1 1).actualBounds.bottomRow ≠ 4 :=
  ⟨by decide, by decide, by decide⟩

/-- A row whose joined text contains "total" but not "subtotal" ends the
downward walk at that row immediately, whatever follows it. -/
theorem findBottomAux_total_stop (ws : Sheet) (l r : Nat) (g : List Nat)
    (row : Nat) (rest : List Nat) (last : Nat)
    (h1 : (bottomRowVals ws l r g row).isEmpty = false)
    (h2 : containsStr (String.intercalate " " (bottomRowVals ws l r g row)) "total" = true)
    (h3 : containsStr (String.intercalate " " (bottomRowVals ws l r g row)) "subtotal" = false) :
    findBottomAux ws l r g (row :: rest) last = (row, true) := by
  unfold findBottomAux
  simp [h1, h2, h3]

/-- C3 (amended): a row whose joined text contains "total" but not
"subtotal" is included and ends the downward expansion unconditionally,
without any footnote scan: on the concrete sheet the pre-padding bottom
row is the total row 3 (not the `*` footnote row 4), and stopping at the
total row is independent of everything below it (any remaining scan rows
`rest` and any running `lastDataRow`). -/
theorem claim_C3_amended_total_row_stops_unconditionally :
    (findTableBoundaries sheetTotalFootnote 1 1 1).actualBounds.bottomRow = 3 ∧
    (∀ (rest : List Nat) (last : Nat),
      findBottomAux sheetTotalFootnote 1 2 [] (3 :: rest) last = (3, true)) := by
  refine ⟨by decide, ?_⟩
  intro rest last
  exact findBottomAux_total_stop _ _ _ _ _ _ _ (by decide) (by decide) (by decide)

/-! ## Claim C7 -/

/-- Counterexample to C7: for the sheet named `S&U` and the requested
variant `Sources & Uses`, the improved `findSheet` computes the score
5/16 ≈ 0.31 (the common-pattern clause does not fire because the key
check does not normalise `&` to `and`), which is below 0.85 — and the
resolver rejects the sheet. -/
theorem claim_C7_counterexample :
    sheetTargetScore (strLowerTrim "S&U") (strLowerTrim "Sources & Uses") = mkRat 5 16 ∧
    mkRat 5 16 < mkRat 85 100 ∧
    (findSheet wbSU ["Sources & Uses"]).map Sheet.name = none :=
  ⟨by decide, by decide, by decide⟩

/-- C7 (amended): with the `and`-spelled variant `Sources and Uses`, the
sheet named `S&U` scores 1.0 (≥ 0.85) via the common-pattern clause and is
accepted by the resolver. -/
theorem claim_C7_amended_and_spelled_variant :
    sheetTargetScore (strLowerTrim "S&U") (strLowerTrim "Sources and Uses") = 1 ∧
    mkRat 85 100 ≤ (1 : ℚ) ∧
    (findSheet wbSU ["Sources and Uses"]).map Sheet.name = some "S&U" :=
  ⟨by decide, by decide, by decide⟩

/-! ## Claim C9 -/

/-- C9: a request whose base64 payload fails the format regex, or whose
decoded bytes are shorter than 4 bytes or do not begin with the ZIP
local-file-header magic `0x04034b50`, is rejected with a 400
input-validation error by both the `/detect-and-capture` and the
`/convert` handler, for EVERY post-validation continuation `process` —
i.e. before the workbook is parsed and before any detection or rendering
can run. -/
theorem claim_C9_validation_before_processing :
    (∀ (α : Type)
       (process : List Nat → String → Option (List String) → Nat → Option String → α)
       (req : DetectCaptureRequest) (s : String),
       req.excelBase64 = some s →
       (base64FormatOk s = false ∨ (decodeBase64 s).length < 4 ∨
        readUInt32LE (decodeBase64 s) ≠ zipMagic) →
       ∃ msg, detectAndCaptureHandler process req = .rejected 400 msg) ∧
    (∀ (α : Type)
       (process : List Nat → String → String → Option String → α)
       (req : ConvertRequest) (s : String),
       req.excelBase64 = some s →
       (base64FormatOk s = false ∨ (decodeBase64 s).length < 4 ∨
        readUInt32LE (decodeBase64 s) ≠ zipMagic) →
       ∃ msg, convertHandler process req = .rejected 400 msg) := by
  constructor
  · intro α process req s hs hbad
    obtain ⟨eb, tn, ss, pd, fn⟩ := req
    simp only at hs
    subst hs
    unfold detectAndCaptureHandler
    cases tn with
    | none => exact ⟨_, rfl⟩
    | some nm =>
      dsimp only
      split
      · exact ⟨_, rfl⟩
      · split
        · exact ⟨_, rfl⟩
        · split
          · exact ⟨_, rfl⟩
          · rename_i hfmt hsig
            exfalso
            rcases hbad with hbad | hbad | hbad
            · rw [hbad] at hfmt
              simp at hfmt
            · exact hsig (by simp [hbad])
            · exact hsig (by simp [hbad])
  · intro α process req s hs hbad
    obtain ⟨eb, sn, rg, fn⟩ := req
    simp only at hs
    subst hs
    unfold convertHandler
    cases sn with
    | none => exact ⟨_, rfl⟩
    | some sn' =>
      cases rg with
      | none => exact ⟨_, rfl⟩
      | some rg' =>
        dsimp only
        split
        · exact ⟨_, rfl⟩
        · split
          · exact ⟨_, rfl⟩
          · split
            · exact ⟨_, rfl⟩
            · rename_i hfmt hsig
              exfalso
              rcases hbad with hbad | hbad | hbad
              · rw [hbad] at hfmt
                simp at hfmt
              · exact hsig (by simp [hbad])
              · exact hsig (by simp [hbad])

/-- Witness for C9 at two concrete malformed requests. -/
theorem claim_C9_witness :
    (∃ msg, detectAndCaptureHandler (fun _ _ _ _ _ => ()) badReqDetect =
      HandlerResult.rejected 400 msg) ∧
    (∃ msg, convertHandler (fun _ _ _ _ => ()) badReqConvert =
      HandlerResult.rejected 400 msg) :=
  ⟨claim_C9_validation_before_processing.1 Unit (fun _ _ _ _ _ => ()) badReqDetect "###"
      rfl (Or.inl (by decide)),
   claim_C9_validation_before_processing.2 Unit (fun _ _ _ _ => ()) badReqConvert "AAAA"
      rfl (Or.inr (Or.inl (by decide)))⟩

/-! ## Claim C8 -/

/-- The `results.searchedSheets` list is always the names of `sheetsToSearch`, in
order, on every selection path. -/
theorem sheetsToSearchOf_snd (wb : Workbook) (nm : String)
    (ss : Option (List String)) :
    (sheetsToSearchOf wb nm ss).2 = (sheetsToSearchOf wb nm ss).1.map Sheet.name := by
  have hfold : ∀ (l : List String) (acc : List Sheet × List String),
      acc.2 = acc.1.map Sheet.name →
      (l.foldl
        (fun acc sheetName =>
          match findSheet wb [sheetName] with
          | some sheet => (acc.1 ++ [sheet], acc.2 ++ [sheet.name])
          | none => acc) acc).2 =
      (l.foldl
        (fun acc sheetName =>
          match findSheet wb [sheetName] with
          | some sheet => (acc.1 ++ [sheet], acc.2 ++ [sheet.name])
          | none => acc) acc).1.map Sheet.name := by
    intro l
    induction l with
    | nil => intro acc h; exact h
    | cons x t ih =>
      intro acc h
      rw [List.foldl_cons]
      cases hfs : findSheet wb [x] with
      | none => exact ih acc h
      | some sheet =>
        refine ih _ ?_
        simp [h]
  unfold sheetsToSearchOf
  cases ss with
  | none => rfl
  | some names =>
    dsimp only
    split
    · exact hfold names ([], []) rfl
    · rfl

/-- If no searched sheet yields a header match, the search loop fails. -/
theorem firstHeaderHit_eq_none (nm : String) :
    ∀ l : List Sheet, (∀ sheet ∈ l, findTableHeader sheet nm 200 30 = none) →
      firstHeaderHit nm l = none := by
  intro l
  induction l with
  | nil => intro _; rfl
  | cons s t ih =>
    intro h
    unfold firstHeaderHit
    rw [h s (List.mem_cons_self _ _)]
    exact ih fun x hx => h x (List.mem_cons_of_mem _ hx)

theorem dedupFirst_eq_nil_iff (l : List String) : dedupFirst l = [] ↔ l = [] := by
  cases l with
  | nil => simp [dedupFirst, dedupFirstAux]
  | cons x t => simp [dedupFirst, dedupFirstAux]

theorem take_eight_eq_nil_iff (l : List String) : l.take 8 = [] ↔ l = [] := by
  cases l <;> simp

theorem flatMap_eq_nil_iff' {α β : Type} (f : α → List β) :
    ∀ l : List α, (l.flatMap f = [] ↔ ∀ x ∈ l, f x = []) := by
  intro l
  induction l with
  | nil => simp
  | cons x t ih => simp [ih]

/-- Counterexample to C8: on a workbook whose only (empty) sheet is
`Empty`, the table `Loan to Cost` is not found and `searchedSheets` is
exactly the scanned sheet, but `suggestions` is EMPTY — the claim's
"suggestions list is non-empty" fails. -/
theorem claim_C8_counterexample :
    (detectTable wbEmpty "Loan to Cost" none 2).found = false ∧
    (detectTable wbEmpty "Loan to Cost" none 2).searchedSheets = ["Empty"] ∧
    (detectTable wbEmpty "Loan to Cost" none 2).suggestions = [] :=
  ⟨by decide, by decide, by decide⟩

/-- C8 (amended): whenever no searched sheet yields a header match,
`detectTable` returns `found = false`, `searchedSheets` equal to the
names of the sheets actually scanned (in scan order), and a suggestions
list (bold / likely-table-name cell texts gathered from the searched
sheets, deduplicated and capped at 8) that is empty exactly when no
searched sheet contains such a candidate — in particular it can be
empty. -/
theorem claim_C8_amended_not_found_result
    (wb : Workbook) (tableName : String) (searchSheets : Option (List String))
    (p : Nat)
    (hnone : ∀ sheet ∈ (sheetsToSearchOf wb tableName searchSheets).1,
      findTableHeader sheet tableName 200 30 = none) :
    (detectTable wb tableName searchSheets p).found = false ∧
    (detectTable wb tableName searchSheets p).searchedSheets =
      (sheetsToSearchOf wb tableName searchSheets).1.map Sheet.name ∧
    ((detectTable wb tableName searchSheets p).suggestions = [] ↔
      ∀ sheet ∈ (sheetsToSearchOf wb tableName searchSheets).1,
        findSuggestions sheet (-1) 3 = []) := by
  unfold detectTable
  dsimp only
  rw [firstHeaderHit_eq_none tableName _ hnone]
  dsimp only
  refine ⟨rfl, sheetsToSearchOf_snd wb tableName searchSheets, ?_⟩
  rw [take_eight_eq_nil_iff, dedupFirst_eq_nil_iff, flatMap_eq_nil_iff']
  constructor
  · intro h sheet hs
    have := h sheet hs
    simpa using this
  · intro h sheet hs
    simpa using h sheet hs

/-- Witness for C8 (amended) at the concrete empty workbook. -/
theorem claim_C8_witness :
    (detectTable wbEmpty "Loan to Cost" none 2).found = false ∧
    (detectTable wbEmpty "Loan to Cost" none 2).searchedSheets =
      (sheetsToSearchOf wbEmpty "Loan to Cost" none).1.map Sheet.name ∧
    ((detectTable wbEmpty "Loan to Cost" none 2).suggestions = [] ↔
      ∀ sheet ∈ (sheetsToSearchOf wbEmpty "Loan to Cost" none).1,
        findSuggestions sheet (-1) 3 = []) :=
  claim_C8_amended_not_found_result wbEmpty "Loan to Cost" none 2 (by decide)

/-! ## Claim C5 -/

/-- Counterexample to C5 as stated: for the workbook with the single sheet
`S&U` and the variant list `["Sources and Uses"]`, the claimed score is
5/16 < 0.5, so per the claim the resolver must return no match — but the
code returns the sheet (its score is raised to 1.0 by the
`commonSheetPatterns` clause, which the claim's description omits). -/
theorem claim_C5_counterexample :
    claimC5Score sheetSU ["Sources and Uses"] = mkRat 5 16 ∧
    (claimC5FindSheet wbSU ["Sources and Uses"]).map Sheet.name = none ∧
    (findSheet wbSU ["Sources and Uses"]).map Sheet.name = some "S&U" :=
  ⟨by decide, by decide, by decide⟩

/-- The inner (per-sheet) fold of `findSheet` computes the maximum of the
incoming best score and the sheet's full score, and selects the sheet iff
it strictly improves. -/
theorem findSheet_inner (sheet : Sheet) (ts : List String) :
    ∀ (b : ℚ) (m : Option Sheet), 0 ≤ b →
      (ts.foldl
        (fun acc2 target =>
          if sheetTargetScore (strLowerTrim sheet.name) (strLowerTrim target) > acc2.1
          then (sheetTargetScore (strLowerTrim sheet.name) (strLowerTrim target), some sheet)
          else acc2)
        (b, m)) =
      (max b (sheetFullScore sheet ts),
       if sheetFullScore sheet ts > b then some sheet else m) := by
  induction ts with
  | nil =>
    intro b m hb
    dsimp [sheetFullScore]
    rw [max_eq_left hb, if_neg (not_lt.mpr hb)]
  | cons t rest ih =>
    intro b m hb
    rw [List.foldl_cons]
    dsimp only
    by_cases hsc : sheetTargetScore (strLowerTrim sheet.name) (strLowerTrim t) > b
    · rw [if_pos hsc, ih _ _ (hb.trans hsc.le)]
      dsimp [sheetFullScore]
      rw [ite_self]
      have hbs : b ≤ max (sheetTargetScore (strLowerTrim sheet.name) (strLowerTrim t))
          (sheetFullScore sheet rest) := hsc.le.trans (le_max_left _ _)
      rw [max_eq_right hbs, if_pos (lt_of_lt_of_le hsc (le_max_left _ _))]
    · rw [if_neg hsc, ih _ _ hb]
      dsimp [sheetFullScore]
      have hA : sheetTargetScore (strLowerTrim sheet.name) (strLowerTrim t) ≤ b :=
        not_lt.mp hsc
      have hfst : max b (max (sheetTargetScore (strLowerTrim sheet.name) (strLowerTrim t))
          (sheetFullScore sheet rest)) = max b (sheetFullScore sheet rest) := by
        rw [← max_assoc, max_eq_left hA]
      have hcond : (max (sheetTargetScore (strLowerTrim sheet.name) (strLowerTrim t))
          (sheetFullScore sheet rest) > b) = (sheetFullScore sheet rest > b) :=
        propext ⟨fun h => (lt_max_iff.mp h).resolve_left hsc,
                 fun h => lt_max_iff.mpr (Or.inr h)⟩
      rw [hfst]
      simp only [hcond]

/-- The outer fold of `findSheet` computes the overall maximum score and
the FIRST sheet attaining it (ties broken by workbook order), provided it
strictly improves on the incoming best. -/
theorem findSheet_outer (ts : List String) :
    ∀ (l : List Sheet) (b : ℚ) (m : Option Sheet), 0 ≤ b →
      (l.foldl
        (fun acc sheet =>
          ts.foldl
            (fun acc2 target =>
              if sheetTargetScore (strLowerTrim sheet.name) (strLowerTrim target) > acc2.1
              then (sheetTargetScore (strLowerTrim sheet.name) (strLowerTrim target),
                    some sheet)
              else acc2)
            acc)
        (b, m)) =
      (max b (maxFullScore ts l),
       if maxFullScore ts l > b then
         l.find? (fun s => decide (sheetFullScore s ts = maxFullScore ts l))
       else m) := by
  intro l
  induction l with
  | nil =>
    intro b m hb
    dsimp [maxFullScore]
    rw [max_eq_left hb, if_neg (not_lt.mpr hb)]
  | cons s rest ih =>
    intro b m hb
    rw [List.foldl_cons, findSheet_inner s ts b m hb,
        ih _ _ (hb.trans (le_max_left b _))]
    dsimp only [maxFullScore]
    simp only [Prod.mk.injEq]
    constructor
    · rw [← max_assoc]
    · by_cases h1 : maxFullScore ts rest > max b (sheetFullScore s ts)
      · have hAM : sheetFullScore s ts < maxFullScore ts rest :=
          lt_of_le_of_lt (le_max_right b _) h1
        have hbM : b < maxFullScore ts rest := lt_of_le_of_lt (le_max_left b _) h1
        rw [if_pos h1, max_eq_right hAM.le, if_pos hbM,
            List.find?_cons_of_neg _ (by simp [hAM.ne])]
      · have hM : maxFullScore ts rest ≤ max b (sheetFullScore s ts) := not_lt.mp h1
        rw [if_neg h1]
        by_cases h3 : sheetFullScore s ts > b
        · have hA : maxFullScore ts rest ≤ sheetFullScore s ts := by
            rw [max_eq_right h3.le] at hM
            exact hM
          rw [max_eq_left hA, if_pos h3, if_pos h3,
              List.find?_cons_of_pos _ (by simp)]
        · have hAb : sheetFullScore s ts ≤ b := not_lt.mp h3
          have hMb : maxFullScore ts rest ≤ b := by
            rw [max_eq_left hAb] at hM
            exact hM
          rw [if_neg h3, if_neg (not_lt.mpr (max_le hAb hMb))]

/-- C5 (amended): the improved `findSheet` accepts the first sheet whose
FULL score (the `fuzzyMatch` cascade, raised by common-pattern scores for
keys contained in the target and boosted to at least 0.85 on substring
containment) attains the overall maximum, iff that maximum exceeds 0.5;
ties are broken by workbook order (the first sheet wins); otherwise it
returns no match. -/
theorem claim_C5_amended_resolver_characterization
    (wb : Workbook) (targetNames : List String) :
    findSheet wb targetNames =
      (if maxFullScore targetNames wb.sheets > mkRat 1 2 then
        wb.sheets.find? fun s =>
          decide (sheetFullScore s targetNames = maxFullScore targetNames wb.sheets)
      else none) := by
  unfold findSheet
  dsimp only
  rw [findSheet_outer targetNames wb.sheets 0 none le_rfl]
  dsimp only
  by_cases hM : maxFullScore targetNames wb.sheets > mkRat 1 2
  · have h0 : (0 : ℚ) < maxFullScore targetNames wb.sheets :=
      lt_trans (by decide) hM
    rw [max_eq_right h0.le, if_pos hM, if_pos hM, if_pos h0]
  · have : max 0 (maxFullScore targetNames wb.sheets) ≤ mkRat 1 2 :=
      max_le (by decide) (not_lt.mp hM)
    rw [if_neg (not_lt.mpr this), if_neg hM]

/-! ## Claim C6 -/

theorem insertByScore_ne_nil (m : HeaderMatch) (s : List HeaderMatch) :
    insertByScore m s ≠ [] := by
  cases s with
  | nil => exact List.cons_ne_nil _ _
  | cons b t =>
    unfold insertByScore
    split
    · exact List.cons_ne_nil _ _
    · exact List.cons_ne_nil _ _

theorem sortByScoreDesc_eq_nil_iff (l : List HeaderMatch) :
    sortByScoreDesc l = [] ↔ l = [] := by
  cases l with
  | nil => simp [sortByScoreDesc]
  | cons m t =>
    simp only [sortByScoreDesc]
    exact ⟨fun h => absurd h (insertByScore_ne_nil m _), fun h => List.noConfusion h⟩

theorem firstBest_isSome (m : HeaderMatch) (t : List HeaderMatch) :
    (firstBest (m :: t)).isSome = true := by
  unfold firstBest
  cases firstBest t with
  | none => rfl
  | some b =>
    dsimp only
    split <;> rfl

theorem firstBest_eq_none_iff (l : List HeaderMatch) :
    firstBest l = none ↔ l = [] := by
  cases l with
  | nil => simp [firstBest]
  | cons m t =>
    constructor
    · intro h
      have hsome := firstBest_isSome m t
      rw [h] at hsome
      exact Bool.noConfusion hsome
    · intro h
      exact List.noConfusion h

/-- Taking the head of the stable descending sort picks the earliest
maximal-score match. -/
theorem sortByScoreDesc_head (l : List HeaderMatch) :
    (sortByScoreDesc l).head? = firstBest l := by
  induction l with
  | nil => rfl
  | cons m t ih =>
    show (insertByScore m (sortByScoreDesc t)).head? = firstBest (m :: t)
    cases hs : sortByScoreDesc t with
    | nil =>
      have ht : firstBest t = none := by rw [← ih, hs]; rfl
      simp [insertByScore, firstBest, ht]
    | cons b bt =>
      have ht : firstBest t = some b := by rw [← ih, hs]; rfl
      simp only [firstBest, ht, insertByScore]
      by_cases hge : m.score ≥ b.score
      · rw [if_pos hge, if_neg (not_lt.mpr hge)]
        rfl
      · rw [if_neg hge, if_pos (lt_of_not_ge hge)]
        rfl

/-- The selected match bounds the score of every listed match. -/
theorem firstBest_max :
    ∀ (l : List HeaderMatch) (b : HeaderMatch), firstBest l = some b →
      ∀ x ∈ l, x.score ≤ b.score := by
  intro l
  induction l with
  | nil => intro b h; exact absurd h (by simp [firstBest])
  | cons m t ih =>
    intro b h x hx
    unfold firstBest at h
    cases hf : firstBest t with
    | none =>
      rw [hf] at h
      dsimp only at h
      cases h
      rcases List.mem_cons.mp hx with hx | hx
      · exact hx ▸ le_rfl
      · rw [(firstBest_eq_none_iff t).mp hf] at hx
        exact absurd hx (List.not_mem_nil x)
    | some c =>
      rw [hf] at h
      dsimp only at h
      by_cases hgt : c.score > m.score
      · rw [if_pos hgt] at h
        cases h
        rcases List.mem_cons.mp hx with hx | hx
        · exact hx ▸ hgt.le
        · exact ih _ hf x hx
      · rw [if_neg hgt] at h
        cases h
        rcases List.mem_cons.mp hx with hx | hx
        · exact hx ▸ le_rfl
        · exact (ih _ hf x hx).trans (not_lt.mp hgt)

/-- The selected match is the FIRST maximal one: everything before it in
the list scores strictly less. -/
theorem firstBest_split :
    ∀ (l : List HeaderMatch) (b : HeaderMatch), firstBest l = some b →
      ∃ pre post, l = pre ++ b :: post ∧ ∀ x ∈ pre, x.score < b.score := by
  intro l
  induction l with
  | nil => intro b h; exact absurd h (by simp [firstBest])
  | cons m t ih =>
    intro b h
    unfold firstBest at h
    cases hf : firstBest t with
    | none =>
      rw [hf] at h
      dsimp only at h
      cases h
      exact ⟨[], t, rfl, by simp⟩
    | some c =>
      rw [hf] at h
      dsimp only at h
      by_cases hgt : c.score > m.score
      · rw [if_pos hgt] at h
        cases h
        obtain ⟨pre, post, heq, hpre⟩ := ih _ hf
        refine ⟨m :: pre, post, by rw [heq, List.cons_append], ?_⟩
        intro x hx
        rcases List.mem_cons.mp hx with hx | hx
        · exact hx ▸ hgt
        · exact hpre x hx
      · rw [if_neg hgt] at h
        cases h
        exact ⟨[], t, rfl, by simp⟩

theorem headerCheckCell_found (ws : Sheet) (variations : List String)
    (r c : Nat) (st : HeaderScanState) :
    (headerCheckCell ws variations r c st).found =
      st.found ++ cellMatches ws variations r c := by
  unfold headerCheckCell cellMatches
  dsimp only
  split
  · simp
  · rfl

/-- Every match a scan-cell visit pushes has a score above 0.7 and the
confidence tier determined by the 0.95 threshold. -/
theorem cellMatches_shape (ws : Sheet) (variations : List String) (r c : Nat) :
    ∀ m ∈ cellMatches ws variations r c,
      m.score > mkRat 7 10 ∧
      m.confidence = (if m.score ≥ mkRat 95 100 then "exact" else "fuzzy") := by
  intro m hm
  unfold cellMatches at hm
  revert hm
  split
  · intro hm
    exact absurd hm (List.not_mem_nil m)
  · intro hm
    obtain ⟨variation, _, hv⟩ := List.mem_filterMap.mp hm
    revert hv
    split
    · intro hv
      cases hv
      rename_i hsc
      exact ⟨hsc, rfl⟩
    · intro hv
      exact Option.noConfusion hv

/-- Invariant propagation through the scan fold: any per-match property of
the pushes holds of the entire `matches` array. -/
theorem headerScan_fold_invariant (ws : Sheet) (variations : List String)
    (P : HeaderMatch → Prop)
    (hP : ∀ r c, ∀ m ∈ cellMatches ws variations r c, P m) :
    ∀ (coords : List (Nat × Nat)) (st : HeaderScanState),
      (∀ m ∈ st.found, P m) →
      ∀ m ∈ (coords.foldl
        (fun st rc => headerScanCell ws variations st rc.1 rc.2) st).found, P m := by
  intro coords
  induction coords with
  | nil => intro st h; exact h
  | cons rc rest ih =>
    intro st h
    rw [List.foldl_cons]
    refine ih _ ?_
    intro m
    have hcheck : ∀ st' : HeaderScanState, (∀ x ∈ st'.found, P x) →
        ∀ x ∈ (headerCheckCell ws variations rc.1 rc.2 st').found, P x := by
      intro st' h' x hx
      rw [headerCheckCell_found] at hx
      rcases List.mem_append.mp hx with hx | hx
      · exact h' x hx
      · exact hP rc.1 rc.2 x hx
    unfold headerScanCell
    dsimp only
    split
    · split
      · split
        · intro hm
          exact h m hm
        · split
          · intro hm
            rename_i mrect _ _ _
            exact hcheck ⟨(mrect.startRow, mrect.startCol) :: st.processed, st.found⟩ h m hm
          · intro hm
            exact h m hm
      · intro hm
        exact hcheck st h m hm
    · intro hm
      exact hcheck st h m hm

/-- Every recorded candidate scores above the 0.7 threshold and carries
the 0.95-threshold confidence tier. -/
theorem headerCandidates_shape (ws : Sheet) (tableName : String) :
    ∀ m ∈ headerCandidates ws tableName 200 30,
      m.score > mkRat 7 10 ∧
      m.confidence = (if m.score ≥ mkRat 95 100 then "exact" else "fuzzy") := by
  unfold headerCandidates
  exact headerScan_fold_invariant ws (tableVariations tableName) _
    (fun r c => cellMatches_shape ws (tableVariations tableName) r c) _ ⟨[], []⟩
    (by intro m hm; exact absurd hm (List.not_mem_nil m))

/-- On merge-free sheets the scan fold is a plain concatenation of the
per-cell pushes. -/
theorem headerScan_fold_mergeFree (ws : Sheet) (variations : List String)
    (hm : ws.merges = []) :
    ∀ (coords : List (Nat × Nat)) (st : HeaderScanState),
      (coords.foldl
        (fun st rc => headerScanCell ws variations st rc.1 rc.2) st).found =
      st.found ++ coords.flatMap (fun rc => cellMatches ws variations rc.1 rc.2) := by
  have hnomerge : ∀ r c, isMergedAt ws r c = false := by
    intro r c
    unfold isMergedAt getMergedRangeAt
    rw [hm]
    rfl
  intro coords
  induction coords with
  | nil => intro st; simp
  | cons rc rest ih =>
    intro st
    rw [List.foldl_cons]
    have hcell : headerScanCell ws variations st rc.1 rc.2 =
        headerCheckCell ws variations rc.1 rc.2 st := by
      unfold headerScanCell
      rw [hnomerge rc.1 rc.2]
      simp
    rw [hcell, ih, headerCheckCell_found]
    simp

/-- Membership in the per-cell pushes, spelled out. -/
theorem mem_cellMatches_iff (ws : Sheet) (vs : List String) (r c : Nat)
    (m : HeaderMatch) :
    m ∈ cellMatches ws vs r c ↔
      getCellValue ws r c ≠ "" ∧
      ∃ variation ∈ vs,
        fuzzyMatch (getCellValue ws r c) variation > mkRat 7 10 ∧
        m = ⟨r, c, getCellValue ws r c, fuzzyMatch (getCellValue ws r c) variation,
             if fuzzyMatch (getCellValue ws r c) variation ≥ mkRat 95 100
             then "exact" else "fuzzy"⟩ := by
  unfold cellMatches
  split
  · rename_i hv
    simp [hv]
  · rename_i hv
    rw [List.mem_filterMap]
    constructor
    · rintro ⟨v, hvmem, hsome⟩
      revert hsome
      split
      · intro h
        cases h
        rename_i hsc
        exact ⟨hv, v, hvmem, hsc, rfl⟩
      · intro h
        exact Option.noConfusion h
    · rintro ⟨-, v, hvmem, hsc, rfl⟩
      exact ⟨v, hvmem, by rw [if_pos hsc]⟩

/-- C6: the improved `findTableHeader` (with its default 200×30 window)
(a) fails exactly when no candidate was recorded; (b) returns the single
highest-scoring recorded candidate, ties broken by recording order (the
candidates strictly before it score strictly less, and it bounds every
candidate's score), with score above 0.7 and the `exact` tier exactly for
scores ≥ 0.95; (c) every recorded candidate scores above 0.7 with the
0.95-threshold tier; and (d) on merge-free sheets a candidate is recorded
for a cell and variation exactly when the cell is in the scan window, its
value is non-empty, and the fuzzy score exceeds 0.7. -/
theorem claim_C6_header_locator (ws : Sheet) (tableName : String) :
    (findTableHeader ws tableName 200 30 = none ↔
      headerCandidates ws tableName 200 30 = []) ∧
    (∀ m, findTableHeader ws tableName 200 30 = some m →
      (∃ pre post, headerCandidates ws tableName 200 30 = pre ++ m :: post ∧
        ∀ x ∈ pre, x.score < m.score) ∧
      (∀ x ∈ headerCandidates ws tableName 200 30, x.score ≤ m.score) ∧
      m.score > mkRat 7 10 ∧
      (m.confidence = "exact" ↔ m.score ≥ mkRat 95 100)) ∧
    (∀ x ∈ headerCandidates ws tableName 200 30,
      x.score > mkRat 7 10 ∧
      (x.confidence = "exact" ↔ x.score ≥ mkRat 95 100)) ∧
    (ws.merges = [] →
      ∀ m, m ∈ headerCandidates ws tableName 200 30 ↔
        ∃ r c variation,
          r ∈ natRange 1 (min 200 ws.rowCount) ∧
          c ∈ natRange 1 (min 30 ws.columnCount) ∧
          variation ∈ tableVariations tableName ∧
          getCellValue ws r c ≠ "" ∧
          fuzzyMatch (getCellValue ws r c) variation > mkRat 7 10 ∧
          m = ⟨r, c, getCellValue ws r c, fuzzyMatch (getCellValue ws r c) variation,
               if fuzzyMatch (getCellValue ws r c) variation ≥ mkRat 95 100
               then "exact" else "fuzzy"⟩) := by
  have hconf : ∀ x ∈ headerCandidates ws tableName 200 30,
      x.score > mkRat 7 10 ∧ (x.confidence = "exact" ↔ x.score ≥ mkRat 95 100) := by
    intro x hx
    obtain ⟨h1, h2⟩ := headerCandidates_shape ws tableName x hx
    refine ⟨h1, ?_⟩
    by_cases hs : x.score ≥ mkRat 95 100
    · rw [if_pos hs] at h2
      rw [h2]
      exact ⟨fun _ => hs, fun _ => rfl⟩
    · rw [if_neg hs] at h2
      rw [h2]
      constructor
      · intro hcontra
        exact absurd hcontra (by decide)
      · intro hcontra
        exact absurd hcontra hs
  refine ⟨?_, ?_, hconf, ?_⟩
  · show (sortByScoreDesc (headerCandidates ws tableName 200 30)).head? = none ↔ _
    rw [sortByScoreDesc_head, firstBest_eq_none_iff]
  · intro m hm
    have hfb : firstBest (headerCandidates ws tableName 200 30) = some m := by
      rw [← sortByScoreDesc_head]
      exact hm
    obtain ⟨pre, post, heq, hpre⟩ := firstBest_split _ m hfb
    have hmem : m ∈ headerCandidates ws tableName 200 30 := by
      rw [heq]
      exact List.mem_append.mpr (Or.inr (List.mem_cons_self _ _))
    obtain ⟨h1, h2⟩ := hconf m hmem
    exact ⟨⟨pre, post, heq, hpre⟩, firstBest_max _ m hfb, h1, h2⟩
  · intro hmerge m
    show m ∈ headerCandidates ws tableName 200 30 ↔ _
    unfold headerCandidates
    dsimp only
    rw [headerScan_fold_mergeFree ws (tableVariations tableName) hmerge,
        List.nil_append, List.mem_flatMap]
    constructor
    · rintro ⟨rc, hrc, hmc⟩
      obtain ⟨r, hr, hc0⟩ := List.mem_flatMap.mp hrc
      obtain ⟨c, hc, rfl⟩ := List.mem_map.mp hc0
      obtain ⟨hval, v, hvmem, hsc, hmeq⟩ :=
        (mem_cellMatches_iff ws (tableVariations tableName) r c m).mp hmc
      exact ⟨r, c, v, hr, hc, hvmem, hval, hsc, hmeq⟩
    · rintro ⟨r, c, v, hr, hc, hvmem, hval, hsc, hmeq⟩
      refine ⟨(r, c), ?_, ?_⟩
      · exact List.mem_flatMap.mpr ⟨r, hr, List.mem_map.mpr ⟨c, hc, rfl⟩⟩
      · exact (mem_cellMatches_iff ws (tableVariations tableName) r c m).mpr
          ⟨hval, v, hvmem, hsc, hmeq⟩

/-- Witness for C6: on the concrete demo sheet the locator returns
`demoMatch`, and the selection properties hold of it. -/
theorem claim_C6_witness :
    (∃ pre post,
      headerCandidates sheetHeaderDemo "Sources and Uses" 200 30 =
        pre ++ demoMatch :: post ∧ ∀ x ∈ pre, x.score < demoMatch.score) ∧
    (∀ x ∈ headerCandidates sheetHeaderDemo "Sources and Uses" 200 30,
      x.score ≤ demoMatch.score) ∧
    demoMatch.score > mkRat 7 10 ∧
    (demoMatch.confidence = "exact" ↔ demoMatch.score ≥ mkRat 95 100) :=
  (claim_C6_header_locator sheetHeaderDemo "Sources and Uses").2.1 demoMatch (by decide)

end ScreenshotService
